import Mathlib

/-!
Shallow embedding of the anki-breakdown-hatena-rss program (src/main.go).

The program parses two CLI flags, fetches an RSS feed, and for each feed
item: computes a dedup key (SHA-256 of the colon-joined feed URL, deck
name and item link), skips the item when the key-value store holds a
non-empty value at that key, otherwise formats an HTML front string,
submits an addNote request to a local AnkiConnect endpoint, and on
success durably records the key with the decimal rendering of the
returned note identifier.

Abstractions made by the embedding, each noted at its definition:
the SHA-256 digest is a function parameter (the claims reason about it
as an injective hash), JSON unmarshalling of the HTTP response body is
an Option parameter, the local-time rendering of the publish timestamp
is carried as a pre-rendered field, and the pebble store is an
association list whose Get and Set never suffer I/O faults (the per-run
claims condition on runs where every submission is recorded).
-/

namespace AnkiHatena

/-- Result of the addNote API call, mirroring the Go struct
addNoteResult with fields Result int64 and Error string. -/
structure addNoteResult where
  result : Int
  error : String
deriving DecidableEq, Repr

/-- Image of a feed item; gofeed exposes it as a nullable pointer, so
the feed item stores an Option of it. Only the URL field is consumed. -/
structure FeedImage where
  url : String
deriving DecidableEq, Repr

/-- Author of a feed item; nullable in gofeed. Only Name is consumed. -/
structure FeedPerson where
  name : String
deriving DecidableEq, Repr

/-- Publish timestamp of a feed item; nullable in gofeed. The program
renders it as local time in the layout 2006-01-02 15:04:05; that
rendering depends on the ambient time zone, so the embedding carries
the rendered string directly. -/
structure GoTime where
  localFormatted : String
deriving DecidableEq, Repr

/-- Entry of the gofeed extension tree. The Go type carries name,
value, attributes and children; the program reads only Value. -/
structure GofeedExtension where
  value : String
deriving DecidableEq, Repr

/-- Extension tree of a feed item: the gofeed type is
map[string]map[string][]Extension, embedded as nested association
lists. -/
abbrev Extensions := List (String × List (String × List GofeedExtension))

/-- Feed item with exactly the fields the program consumes. The three
fields the Go code dereferences without a nil check are Options. -/
structure FeedItem where
  link : String
  title : String
  description : String
  content : String
  categories : List String
  image : Option FeedImage
  publishedParsed : Option GoTime
  author : Option FeedPerson
  extensions : Extensions
deriving DecidableEq, Repr

/-- Command line as handed to flag parsing: none means the flag was not
provided on the command line (flag.Visit does not see it). -/
structure CmdLine where
  url : Option String
  deck : Option String
deriving DecidableEq, Repr

/-- Parsed arguments, mirroring the Go struct args. -/
structure Args where
  URL : String
  Deck : String
deriving DecidableEq, Repr

/-- Embedding of parseArgs: the url flag is required (checked through
flag.Visit, so a provided empty string passes), and the deck flag
defaults to Hatena. -/
def parseArgs (c : CmdLine) : Except String Args :=
  match c.url with
  | none => Except.error "missing required -url argument/flag"
  | some u => Except.ok { URL := u, Deck := c.deck.getD "Hatena" }

/-- Embedding of the concatenation step of pebbleKey: the input strings
joined with a colon separator. -/
def pebbleKeyString (keys : List String) : String :=
  String.intercalate ":" keys

/-- Embedding of pebbleKey: the SHA-256 digest of the colon-joined
input strings. The digest itself is abstracted as the parameter hash;
the claims reason about it as an injective function. -/
def pebbleKey (hash : String → String) (keys : List String) : String :=
  hash (pebbleKeyString keys)

/-- Dedup key of one feed item, as computed in the main loop:
pebbleKey(args.URL, args.Deck, item.Link). -/
def itemKey (hash : String → String) (url deck : String) (item : FeedItem) : String :=
  pebbleKey hash [url, deck, item.link]

/-- Embedding of safeGetBookmarkCount: chained existence checks on the
nested extension structure, returning the first bookmarkcount value
under the hatena key, and the empty string in every other case. -/
def safeGetBookmarkCount (extensions : Extensions) : String :=
  match extensions.lookup "hatena" with
  | some hatena =>
    match hatena.lookup "bookmarkcount" with
    | some (e :: _) => e.value
    | some [] => ""
    | none => ""
  | none => ""

/-- Embedding of fmt.Sprint on the int64 result field: the decimal
rendering of the integer. -/
def fmtSprint (i : Int) : String :=
  toString i

/-- Embedding of the front-formatting expression of the main loop. The
Go code evaluates item.Image.URL, item.PublishedParsed.In(...) and
item.Author.Name without nil checks; when one of them is nil the
process aborts with a nil-pointer dereference, embedded as none. -/
def formatFront (item : FeedItem) : Option String :=
  match item.image, item.publishedParsed, item.author with
  | some image, some published, some author =>
    some ("\n<p>Break it down?</p>\n<hr />\n<br />\n\n<img src=\"" ++ image.url
      ++ "\" />\n<p>" ++ item.title ++ "</p>" ++ String.intercalate " " item.categories
      ++ "\n<p>" ++ item.link ++ "</p>\n<br />\n<div style=\"text-align: left;\">\n\t<p>Bookmark: "
      ++ safeGetBookmarkCount item.extensions ++ " Users</p>\n\t<p>Date: "
      ++ published.localFormatted ++ "</p>\n  <p>" ++ author.name ++ ": "
      ++ item.description ++ "</p>\n</div>\n")
  | _, _, _ => none

/-- Fields object of the addNote request, mirroring addNoteFields. -/
structure addNoteFields where
  Front : String
  Back : String
deriving DecidableEq, Repr

/-- Duplicate scope options of the addNote request. -/
structure addNoteDuplicateScopeOptions where
  deckName : String
  checkChildren : Bool
  checkAllModels : Bool
deriving DecidableEq, Repr

/-- Options object of the addNote request. -/
structure addNoteOptions where
  allowDuplicate : Bool
  duplicateScope : String
  duplicateScopeOptions : addNoteDuplicateScopeOptions
deriving DecidableEq, Repr

/-- Picture attachment entry of the addNote request. -/
structure addNotePicture where
  url : String
  filename : String
  skipHash : String
  fields : List String
deriving DecidableEq, Repr

/-- Note object of the addNote request, mirroring addInsideNote. -/
structure addInsideNote where
  deckName : String
  modelName : String
  fields : addNoteFields
  options : addNoteOptions
  tags : List String
  picture : List addNotePicture
deriving DecidableEq, Repr

/-- Params object of the addNote request. -/
structure addNoteParams where
  note : addInsideNote
deriving DecidableEq, Repr

/-- Top-level addNote request body, mirroring addNoteData. -/
structure addNoteData where
  action : String
  version : Nat
  params : addNoteParams
deriving DecidableEq, Repr

/-- Fixed local endpoint the request is POSTed to, from newAnki. -/
def ankiHost : String :=
  "http://127.0.0.1:8765"

/-- Embedding of the request value built inside AddNote before it is
marshalled to JSON and POSTed. -/
def buildAddNoteData (front back deck : String) (tags : List String) : addNoteData :=
  { action := "addNote"
    version := 6
    params :=
      { note :=
        { deckName := deck
          modelName := "Basic"
          fields := { Front := front, Back := back }
          options :=
            { allowDuplicate := false
              duplicateScope := "deck"
              duplicateScopeOptions :=
                { deckName := deck
                  checkChildren := false
                  checkAllModels := false } }
          tags := tags
          picture := [] } } }

/-- Transport-level failure kinds of AddNote after the HTTP round trip:
a 5xx status, a 4xx status (the error value wraps the ErrHTTP400
sentinel), or a JSON unmarshal failure. -/
inductive AddNoteTransportError where
  | serverError (status : Nat)
  | badRequest (status : Nat)
  | unmarshalError
deriving DecidableEq, Repr

/-- Distinguishing predicate: which transport errors wrap the
ErrHTTP400 sentinel (matched with errors.Is in callers). -/
def wrapsErrHTTP400 : AddNoteTransportError → Bool
  | AddNoteTransportError.badRequest _ => true
  | _ => false

/-- Embedding of the response handling tail of AddNote: status at least
500 is a transport error, status at least 400 is a transport error
wrapping ErrHTTP400, otherwise the body is unmarshalled into
addNoteResult. The JSON unmarshal outcome is abstracted as the parsed
parameter. -/
def handleResponse (status : Nat) (parsed : Option addNoteResult) :
    Except AddNoteTransportError addNoteResult :=
  if 500 ≤ status then Except.error (AddNoteTransportError.serverError status)
  else if 400 ≤ status then Except.error (AddNoteTransportError.badRequest status)
  else
    match parsed with
    | none => Except.error AddNoteTransportError.unmarshalError
    | some r => Except.ok r

/-- Outcome of one AddNote call as seen by the main loop: either a
non-nil error (transport level) or a parsed result value. -/
inductive ApiResult where
  | transportErr
  | result (r : addNoteResult)
deriving DecidableEq, Repr

/-- Pebble store content, embedded as an association list from dedup
keys to stored values. -/
abbrev Store := List (String × String)

/-- Embedding of db.Get followed by the len(value) test: pebble hands
back a nil (empty) value on ErrNotFound, so absence and a stored empty
value are indistinguishable to the loop. -/
def lookupVal : Store → String → String
  | [], _ => ""
  | (k, v) :: rest, key => if key = k then v else lookupVal rest key

/-- Classification of one iteration of the per-item loop. -/
inductive ItemOutcome where
  | skipped
  | panicked
  | transportFailed
  | apiFailed
  | submitted
deriving DecidableEq, Repr

/-- Embedding of one iteration of the main loop over a feed item: dedup
lookup and skip, front formatting (abort on a nil dereference), the
AddNote call (the api parameter abstracts the HTTP exchange), and on
success the durable store write of the decimal note identifier. The
third component counts AddNote calls made by the iteration. -/
def runStep (hash : String → String) (url deck : String) (api : FeedItem → ApiResult)
    (store : Store) (item : FeedItem) : ItemOutcome × Store × Nat :=
  if (lookupVal store (itemKey hash url deck item)).length ≠ 0 then
    (ItemOutcome.skipped, store, 0)
  else
    match formatFront item with
    | none => (ItemOutcome.panicked, store, 0)
    | some _front =>
      match api item with
      | ApiResult.transportErr => (ItemOutcome.transportFailed, store, 1)
      | ApiResult.result r =>
        if r.error ≠ "" then (ItemOutcome.apiFailed, store, 1)
        else (ItemOutcome.submitted, (itemKey hash url deck item, fmtSprint r.result) :: store, 1)

/-- Embedding of the whole per-item loop: items are processed strictly
in order; a nil-pointer dereference aborts the process, so no later
item is reached; every other outcome continues with the next item. The
components are the per-item outcomes, the final store, and the total
number of AddNote calls. -/
def runItems (hash : String → String) (url deck : String) (api : FeedItem → ApiResult) :
    Store → List FeedItem → List ItemOutcome × Store × Nat
  | store, [] => ([], store, 0)
  | store, item :: rest =>
    let step := runStep hash url deck api store item
    if step.1 = ItemOutcome.panicked then ([step.1], step.2.1, step.2.2)
    else
      let tail := runItems hash url deck api step.2.1 rest
      (step.1 :: tail.1, tail.2.1, step.2.2 + tail.2.2)

/-- Example feed item with every nullable field present, used by the
witness instantiations. -/
def itemEx : FeedItem :=
  { link := "https://x/1"
    title := "T"
    description := "D"
    content := "C"
    categories := ["a", "b"]
    image := some { url := "https://img/1" }
    publishedParsed := some { localFormatted := "2024-01-02 03:04:05" }
    author := some { name := "A" }
    extensions := [("hatena", [("bookmarkcount", [{ value := "12" }])])] }

/-- Example feed item whose author is nil. -/
def itemNoAuthor : FeedItem :=
  { itemEx with link := "https://x/2", author := none }

/-- Example API oracle that always succeeds with note identifier 5. -/
def apiOK : FeedItem → ApiResult :=
  fun _ => ApiResult.result { result := 5, error := "" }

/-- Example API oracle that always fails at the transport level. -/
def apiDown : FeedItem → ApiResult :=
  fun _ => ApiResult.transportErr

/-! Helper lemmas shared by the claim theorems. -/

/-- Strings with equal underlying character lists are equal. -/
theorem string_data_eq {a b : String} (h : a.data = b.data) : a = b :=
  congrArg String.mk h

/-- Length of a string is nonzero exactly when the string is nonempty. -/
theorem string_length_ne_zero_iff (s : String) : s.length ≠ 0 ↔ s ≠ "" := by
  constructor
  · intro h hc
    exact h (by rw [hc]; rfl)
  · intro h hc
    apply h
    cases s with
    | mk data =>
      cases data with
      | nil => rfl
      | cons c cs => simp [String.length] at hc

/-- Digit accumulation of Nat.toDigitsCore never returns the empty list
unless it starts from an empty accumulator with no fuel. -/
theorem toDigitsCore_ne_nil (b : Nat) :
    ∀ (fuel n : Nat) (ds : List Char), ds ≠ [] ∨ fuel ≠ 0 →
      Nat.toDigitsCore b fuel n ds ≠ [] := by
  intro fuel
  induction fuel with
  | zero =>
    intro n ds h
    simp only [Nat.toDigitsCore]
    exact h.resolve_right (by simp)
  | succ f ih =>
    intro n ds _
    rw [Nat.toDigitsCore]
    split
    · simp
    · exact ih _ _ (Or.inl (by simp))

/-- Decimal rendering of a natural number is never the empty string. -/
theorem natRepr_ne_empty (n : Nat) : Nat.repr n ≠ "" := by
  have h : Nat.toDigits 10 n ≠ [] :=
    toDigitsCore_ne_nil 10 (n + 1) n [] (Or.inr (by simp))
  intro hc
  apply h
  have hrepr : (Nat.toDigits 10 n).asString = Nat.repr n := rfl
  have hd : (Nat.toDigits 10 n).asString.data = ("" : String).data := by
    rw [hrepr, hc]
  simpa using hd

/-- Decimal rendering of an integer is never the empty string, so every
value the program stores in pebble is non-empty. -/
theorem fmtSprint_ne_empty (i : Int) : fmtSprint i ≠ "" := by
  have hrep : fmtSprint i = Int.repr i := rfl
  rw [hrep]
  cases i with
  | ofNat n => exact natRepr_ne_empty n
  | negSucc n =>
    intro hc
    have hd : ("-" ++ Nat.repr (n + 1)).data = ("" : String).data := by
      rw [← hc]
      rfl
    simp [String.data_append] at hd

/-- Colon-joined rendering of a three-element list. -/
theorem pebbleKeyString_three (u d l : String) :
    pebbleKeyString [u, d, l] = u ++ ":" ++ d ++ ":" ++ l := by
  simp [pebbleKeyString, String.intercalate, String.intercalate.go, String.append_assoc]

/-- Character list of the colon-joined triple. -/
theorem pebbleKeyString_three_data (u d l : String) :
    (pebbleKeyString [u, d, l]).data =
      u.data ++ ':' :: (d.data ++ ':' :: l.data) := by
  rw [pebbleKeyString_three]
  have hcolon : (":" : String).data = [':'] := rfl
  simp [String.data_append, hcolon]

/-- Splitting at the first colon is unambiguous when the prefixes are
colon-free. -/
theorem colon_split :
    ∀ (a b s t : List Char), ':' ∉ a → ':' ∉ b →
      a ++ ':' :: s = b ++ ':' :: t → a = b ∧ s = t := by
  intro a
  induction a with
  | nil =>
    intro b s t _ hb h
    cases b with
    | nil => simpa using h
    | cons c b1 =>
      simp only [List.nil_append, List.cons_append, List.cons.injEq] at h
      exact absurd (h.1 ▸ List.mem_cons_self c b1) hb
  | cons c a1 ih =>
    intro b s t ha hb h
    cases b with
    | nil =>
      simp only [List.cons_append, List.nil_append, List.cons.injEq] at h
      exact absurd (h.1 ▸ List.mem_cons_self c a1) ha
    | cons c2 b1 =>
      simp only [List.cons_append, List.cons.injEq] at h
      have ha1 : ':' ∉ a1 := fun hm => ha (List.mem_cons_of_mem c hm)
      have hb1 : ':' ∉ b1 := fun hm => hb (List.mem_cons_of_mem c2 hm)
      obtain ⟨heq, hst⟩ := ih b1 s t ha1 hb1 h.2
      exact ⟨by rw [h.1, heq], hst⟩

/-- Store shape after one loop iteration: unchanged, or one new entry
at the key of the item with a non-empty value. -/
theorem runStep_store_shape (hash : String → String) (url deck : String)
    (api : FeedItem → ApiResult) (store : Store) (item : FeedItem) :
    (runStep hash url deck api store item).2.1 = store ∨
      ∃ v, (runStep hash url deck api store item).2.1 =
          (itemKey hash url deck item, v) :: store ∧ v ≠ "" := by
  unfold runStep
  split
  · left; rfl
  · split
    · left; rfl
    · split
      · left; rfl
      · split
        · left; rfl
        · right
          exact ⟨_, rfl, fmtSprint_ne_empty _⟩

/-- Lookup in a store extended by one entry. -/
theorem lookupVal_cons (k v key : String) (store : Store) :
    lookupVal ((k, v) :: store) key = if key = k then v else lookupVal store key := rfl

/-- One loop iteration preserves every recorded (non-empty) entry. -/
theorem runStep_preserves_recorded (hash : String → String) (url deck : String)
    (api : FeedItem → ApiResult) (store : Store) (item : FeedItem) (k : String)
    (h : lookupVal store k ≠ "") :
    lookupVal (runStep hash url deck api store item).2.1 k ≠ "" := by
  rcases runStep_store_shape hash url deck api store item with heq | ⟨v, heq, hv⟩
  · rw [heq]; exact h
  · rw [heq, lookupVal_cons]
    split
    · exact hv
    · exact h

/-- Iteration over an already recorded item: skipped, store unchanged,
no API call. -/
theorem runStep_of_dup (hash : String → String) (url deck : String)
    (api : FeedItem → ApiResult) (store : Store) (item : FeedItem)
    (h : lookupVal store (itemKey hash url deck item) ≠ "") :
    runStep hash url deck api store item = (ItemOutcome.skipped, store, 0) := by
  unfold runStep
  rw [if_pos ((string_length_ne_zero_iff _).mpr h)]

/-- Iteration over an unrecorded item that fails to format: the process
aborts before any API call or store write. -/
theorem runStep_of_panic (hash : String → String) (url deck : String)
    (api : FeedItem → ApiResult) (store : Store) (item : FeedItem)
    (hnew : lookupVal store (itemKey hash url deck item) = "")
    (hfmt : formatFront item = none) :
    runStep hash url deck api store item = (ItemOutcome.panicked, store, 0) := by
  unfold runStep
  rw [if_neg (by simp [hnew]), hfmt]

/-- Iteration over an unrecorded item whose AddNote call fails at the
transport level: one API call, store unchanged. -/
theorem runStep_of_transportErr (hash : String → String) (url deck : String)
    (api : FeedItem → ApiResult) (store : Store) (item : FeedItem) (f : String)
    (hnew : lookupVal store (itemKey hash url deck item) = "")
    (hfmt : formatFront item = some f)
    (happ : api item = ApiResult.transportErr) :
    runStep hash url deck api store item = (ItemOutcome.transportFailed, store, 1) := by
  unfold runStep
  rw [if_neg (by simp [hnew]), hfmt, happ]

/-- Iteration over an unrecorded item whose AddNote call is rejected at
the API level: one API call, store unchanged. -/
theorem runStep_of_apiErr (hash : String → String) (url deck : String)
    (api : FeedItem → ApiResult) (store : Store) (item : FeedItem) (f : String)
    (r : addNoteResult)
    (hnew : lookupVal store (itemKey hash url deck item) = "")
    (hfmt : formatFront item = some f)
    (happ : api item = ApiResult.result r) (herr : r.error ≠ "") :
    runStep hash url deck api store item = (ItemOutcome.apiFailed, store, 1) := by
  unfold runStep
  rw [if_neg (by simp [hnew]), hfmt, happ]
  simp [herr]

/-- Iteration over an unrecorded item whose AddNote call succeeds: one
API call, and the decimal note identifier is recorded at the key. -/
theorem runStep_of_success (hash : String → String) (url deck : String)
    (api : FeedItem → ApiResult) (store : Store) (item : FeedItem) (f : String)
    (r : addNoteResult)
    (hnew : lookupVal store (itemKey hash url deck item) = "")
    (hfmt : formatFront item = some f)
    (happ : api item = ApiResult.result r) (herr : r.error = "") :
    runStep hash url deck api store item =
      (ItemOutcome.submitted, (itemKey hash url deck item, fmtSprint r.result) :: store, 1) := by
  unfold runStep
  rw [if_neg (by simp [hnew]), hfmt, happ]
  simp [herr]

/-- Iteration classified as submitted made exactly one API call and
left a non-empty record at the key of the item. -/
theorem runStep_submitted_shape (hash : String → String) (url deck : String)
    (api : FeedItem → ApiResult) (store : Store) (item : FeedItem)
    (h : (runStep hash url deck api store item).1 = ItemOutcome.submitted) :
    (runStep hash url deck api store item).2.2 = 1 ∧
      lookupVal (runStep hash url deck api store item).2.1
        (itemKey hash url deck item) ≠ "" := by
  by_cases hdup : lookupVal store (itemKey hash url deck item) = ""
  · cases hfmt : formatFront item with
    | none =>
      rw [runStep_of_panic hash url deck api store item hdup hfmt] at h
      simp at h
    | some f =>
      cases happ : api item with
      | transportErr =>
        rw [runStep_of_transportErr hash url deck api store item f hdup hfmt happ] at h
        simp at h
      | result r =>
        by_cases herr : r.error = ""
        · rw [runStep_of_success hash url deck api store item f r hdup hfmt happ herr]
          refine ⟨rfl, ?_⟩
          rw [lookupVal_cons, if_pos rfl]
          exact fmtSprint_ne_empty _
        · rw [runStep_of_apiErr hash url deck api store item f r hdup hfmt happ herr] at h
          simp at h
  · rw [runStep_of_dup hash url deck api store item hdup] at h
    simp at h

/-- Unfolding equation of the loop on a cons cell. -/
theorem runItems_cons (hash : String → String) (url deck : String)
    (api : FeedItem → ApiResult) (store : Store) (item : FeedItem)
    (rest : List FeedItem) :
    runItems hash url deck api store (item :: rest) =
      (if (runStep hash url deck api store item).1 = ItemOutcome.panicked then
        ([(runStep hash url deck api store item).1],
         (runStep hash url deck api store item).2.1,
         (runStep hash url deck api store item).2.2)
      else
        ((runStep hash url deck api store item).1 ::
            (runItems hash url deck api (runStep hash url deck api store item).2.1 rest).1,
         (runItems hash url deck api (runStep hash url deck api store item).2.1 rest).2.1,
         (runStep hash url deck api store item).2.2 +
           (runItems hash url deck api (runStep hash url deck api store item).2.1 rest).2.2)) := rfl

/-- Whole loop preserves every recorded (non-empty) entry. -/
theorem runItems_preserves_recorded (hash : String → String) (url deck : String)
    (api : FeedItem → ApiResult) (items : List FeedItem) :
    ∀ (store : Store) (k : String), lookupVal store k ≠ "" →
      lookupVal (runItems hash url deck api store items).2.1 k ≠ "" := by
  induction items with
  | nil =>
    intro store k h
    exact h
  | cons item rest ih =>
    intro store k h
    rw [runItems_cons]
    split
    · exact runStep_preserves_recorded hash url deck api store item k h
    · exact ih _ k (runStep_preserves_recorded hash url deck api store item k h)

/-- Run whose every outcome is submitted: it made one API call per item
and left a non-empty record at the key of every item. -/
theorem runItems_all_submitted (hash : String → String) (url deck : String)
    (api : FeedItem → ApiResult) (items : List FeedItem) :
    ∀ store : Store,
      (∀ o ∈ (runItems hash url deck api store items).1, o = ItemOutcome.submitted) →
      (runItems hash url deck api store items).2.2 = items.length ∧
        ∀ item ∈ items,
          lookupVal (runItems hash url deck api store items).2.1
            (itemKey hash url deck item) ≠ "" := by
  induction items with
  | nil =>
    intro store _
    exact ⟨rfl, by simp⟩
  | cons item rest ih =>
    intro store hall
    rw [runItems_cons] at hall ⊢
    by_cases hp : (runStep hash url deck api store item).1 = ItemOutcome.panicked
    · rw [if_pos hp] at hall
      have hsub := hall _ (List.mem_singleton_self _)
      rw [hp] at hsub
      cases hsub
    · rw [if_neg hp] at hall ⊢
      have hhead : (runStep hash url deck api store item).1 = ItemOutcome.submitted :=
        hall _ (List.mem_cons_self _ _)
      have htail : ∀ o ∈ (runItems hash url deck api
          (runStep hash url deck api store item).2.1 rest).1, o = ItemOutcome.submitted :=
        fun o ho => hall o (List.mem_cons_of_mem _ ho)
      obtain ⟨hcount, hrec⟩ := ih _ htail
      obtain ⟨hone, hkey⟩ :=
        runStep_submitted_shape hash url deck api store item hhead
      refine ⟨by simp [hone, hcount, Nat.add_comm], ?_⟩
      intro it hit
      rcases List.mem_cons.mp hit with heq | hmem
      · subst heq
        exact runItems_preserves_recorded hash url deck api rest _ _ hkey
      · exact hrec it hmem

/-- Run over items whose keys are all recorded: every outcome is
skipped, the store is unchanged, and no API call is made. -/
theorem runItems_all_recorded (hash : String → String) (url deck : String)
    (api : FeedItem → ApiResult) (items : List FeedItem) :
    ∀ store : Store,
      (∀ item ∈ items, lookupVal store (itemKey hash url deck item) ≠ "") →
      runItems hash url deck api store items =
        (List.replicate items.length ItemOutcome.skipped, store, 0) := by
  induction items with
  | nil =>
    intro store _
    rfl
  | cons item rest ih =>
    intro store hall
    have hstep := runStep_of_dup hash url deck api store item
      (hall item (List.mem_cons_self _ _))
    rw [runItems_cons, hstep]
    have htail := ih store (fun it hit => hall it (List.mem_cons_of_mem _ hit))
    simp [htail, List.replicate]

/-- Changing the feed URL alone changes the colon-joined pre-hash
string. -/
theorem pebbleKeyString_ne_of_url_ne (u u2 d l : String) (h : u ≠ u2) :
    pebbleKeyString [u, d, l] ≠ pebbleKeyString [u2, d, l] := by
  intro hc
  apply h
  have hdata := congrArg String.data hc
  rw [pebbleKeyString_three_data, pebbleKeyString_three_data] at hdata
  exact string_data_eq (List.append_cancel_right hdata)

/-- Changing the deck name alone changes the colon-joined pre-hash
string. -/
theorem pebbleKeyString_ne_of_deck_ne (u d d2 l : String) (h : d ≠ d2) :
    pebbleKeyString [u, d, l] ≠ pebbleKeyString [u, d2, l] := by
  intro hc
  apply h
  have hdata := congrArg String.data hc
  rw [pebbleKeyString_three_data, pebbleKeyString_three_data] at hdata
  have h1 := List.append_cancel_left hdata
  injection h1 with _ h2
  exact string_data_eq (List.append_cancel_right h2)

/-- Changing the item link alone changes the colon-joined pre-hash
string. -/
theorem pebbleKeyString_ne_of_link_ne (u d l l2 : String) (h : l ≠ l2) :
    pebbleKeyString [u, d, l] ≠ pebbleKeyString [u, d, l2] := by
  intro hc
  apply h
  have hdata := congrArg String.data hc
  rw [pebbleKeyString_three_data, pebbleKeyString_three_data] at hdata
  have h1 := List.append_cancel_left hdata
  injection h1 with _ h2
  have h3 := List.append_cancel_left h2
  injection h3 with _ h4
  exact string_data_eq h4

/-! Claim theorems. -/

/-- C4: the fingerprint is the hash of the colon-joined concatenation
feedURL ++ ":" ++ deck ++ ":" ++ link, so equal inputs yield equal
fingerprints; and changing exactly one of the three inputs while the
other two are fixed changes the pre-hash string, hence (modelling the
hash as injective) the fingerprint. -/
theorem pebbleKey_deterministic_and_sensitive (hash : String → String)
    (u d l u2 d2 l2 : String) :
    pebbleKey hash [u, d, l] = hash (u ++ ":" ++ d ++ ":" ++ l) ∧
    (u = u2 → d = d2 → l = l2 →
      pebbleKey hash [u, d, l] = pebbleKey hash [u2, d2, l2]) ∧
    (u ≠ u2 → pebbleKeyString [u, d, l] ≠ pebbleKeyString [u2, d, l]) ∧
    (d ≠ d2 → pebbleKeyString [u, d, l] ≠ pebbleKeyString [u, d2, l]) ∧
    (l ≠ l2 → pebbleKeyString [u, d, l] ≠ pebbleKeyString [u, d, l2]) ∧
    (Function.Injective hash →
      (u ≠ u2 → pebbleKey hash [u, d, l] ≠ pebbleKey hash [u2, d, l]) ∧
      (d ≠ d2 → pebbleKey hash [u, d, l] ≠ pebbleKey hash [u, d2, l]) ∧
      (l ≠ l2 → pebbleKey hash [u, d, l] ≠ pebbleKey hash [u, d, l2])) := by
  refine ⟨?_, ?_, pebbleKeyString_ne_of_url_ne u u2 d l,
    pebbleKeyString_ne_of_deck_ne u d d2 l,
    pebbleKeyString_ne_of_link_ne u d l l2, ?_⟩
  · unfold pebbleKey
    rw [pebbleKeyString_three]
  · intro h1 h2 h3
    rw [h1, h2, h3]
  · intro hinj
    refine ⟨fun hne hc => ?_, fun hne hc => ?_, fun hne hc => ?_⟩
    · have hc2 : hash (pebbleKeyString [u, d, l]) = hash (pebbleKeyString [u2, d, l]) := hc
      exact pebbleKeyString_ne_of_url_ne u u2 d l hne (hinj hc2)
    · have hc2 : hash (pebbleKeyString [u, d, l]) = hash (pebbleKeyString [u, d2, l]) := hc
      exact pebbleKeyString_ne_of_deck_ne u d d2 l hne (hinj hc2)
    · have hc2 : hash (pebbleKeyString [u, d, l]) = hash (pebbleKeyString [u, d, l2]) := hc
      exact pebbleKeyString_ne_of_link_ne u d l l2 hne (hinj hc2)

/-- Witness for C4 at concrete inputs with the identity as hash. -/
theorem pebbleKey_deterministic_and_sensitive_witness :
    pebbleKey id ["a", "b", "c"] = id ("a" ++ ":" ++ "b" ++ ":" ++ "c") ∧
    pebbleKeyString ["a", "b", "c"] ≠ pebbleKeyString ["x", "b", "c"] ∧
    pebbleKeyString ["a", "b", "c"] ≠ pebbleKeyString ["a", "x", "c"] ∧
    pebbleKeyString ["a", "b", "c"] ≠ pebbleKeyString ["a", "b", "x"] ∧
    pebbleKey id ["a", "b", "c"] ≠ pebbleKey id ["x", "b", "c"] :=
  ⟨(pebbleKey_deterministic_and_sensitive id "a" "b" "c" "x" "x" "x").1,
   (pebbleKey_deterministic_and_sensitive id "a" "b" "c" "x" "x" "x").2.2.1 (by decide),
   (pebbleKey_deterministic_and_sensitive id "a" "b" "c" "x" "x" "x").2.2.2.1 (by decide),
   (pebbleKey_deterministic_and_sensitive id "a" "b" "c" "x" "x" "x").2.2.2.2.1 (by decide),
   ((pebbleKey_deterministic_and_sensitive id "a" "b" "c" "x" "x" "x").2.2.2.2.2
     Function.injective_id).1 (by decide)⟩

/-- C3 counterexample: two distinct triples whose components contain
the colon separator produce the same colon-joined concatenation, hence
the same fingerprint for every hash function (shown at the identity),
refuting injectivity over all triples. -/
theorem pebbleKey_collision_counterexample :
    ("a:b", "c", "d") ≠ (("a", "b:c", "d") : String × String × String) ∧
    pebbleKeyString ["a:b", "c", "d"] = pebbleKeyString ["a", "b:c", "d"] ∧
    pebbleKey id ["a:b", "c", "d"] = pebbleKey id ["a", "b:c", "d"] :=
  ⟨by decide, rfl, rfl⟩

/-- C3 amended: for two distinct (feed URL, deck name, item link)
triples none of whose components contain the colon separator, the
colon-joined concatenations differ, so modelling the hash as injective
the fingerprints differ. -/
theorem pebbleKey_injective_on_colonFree (hash : String → String)
    (hinj : Function.Injective hash) (u d l u2 d2 l2 : String)
    (hu : ':' ∉ u.data) (hd : ':' ∉ d.data) (hl : ':' ∉ l.data)
    (hu2 : ':' ∉ u2.data) (hd2 : ':' ∉ d2.data) (hl2 : ':' ∉ l2.data)
    (hne : (u, d, l) ≠ (u2, d2, l2)) :
    pebbleKey hash [u, d, l] ≠ pebbleKey hash [u2, d2, l2] := by
  intro hc
  apply hne
  have hc2 : hash (pebbleKeyString [u, d, l]) = hash (pebbleKeyString [u2, d2, l2]) := hc
  have hs := hinj hc2
  have hdata := congrArg String.data hs
  rw [pebbleKeyString_three_data, pebbleKeyString_three_data] at hdata
  obtain ⟨h1, h2⟩ := colon_split u.data u2.data _ _ hu hu2 hdata
  obtain ⟨h3, h4⟩ := colon_split d.data d2.data _ _ hd hd2 h2
  rw [string_data_eq h1, string_data_eq h3, string_data_eq h4]

/-- Witness for the amended C3 at concrete colon-free inputs. -/
theorem pebbleKey_injective_on_colonFree_witness :
    pebbleKey id ["a", "b", "c"] ≠ pebbleKey id ["a", "b", "x"] :=
  pebbleKey_injective_on_colonFree id Function.injective_id "a" "b" "c" "a" "b" "x"
    (by decide) (by decide) (by decide) (by decide) (by decide) (by decide) (by decide)

/-- C5: statuses at least 500 yield a transport error independent of
the body and not wrapping ErrHTTP400; statuses in [400, 500) yield a
transport error wrapping the distinguishable ErrHTTP400 sentinel; any
other status parses the body into a result pair returned with no
transport error. -/
theorem addNote_status_classification (status : Nat) (parsed : Option addNoteResult)
    (r : addNoteResult) :
    (500 ≤ status →
      (∀ parsed2, handleResponse status parsed = handleResponse status parsed2) ∧
      handleResponse status parsed =
        Except.error (AddNoteTransportError.serverError status) ∧
      wrapsErrHTTP400 (AddNoteTransportError.serverError status) = false) ∧
    (400 ≤ status → status < 500 →
      handleResponse status parsed =
        Except.error (AddNoteTransportError.badRequest status) ∧
      wrapsErrHTTP400 (AddNoteTransportError.badRequest status) = true) ∧
    (status < 400 → parsed = some r → handleResponse status parsed = Except.ok r) := by
  refine ⟨?_, ?_, ?_⟩
  · intro h5
    exact ⟨fun parsed2 => by simp [handleResponse, h5], by simp [handleResponse, h5], rfl⟩
  · intro h4 h5
    have hng : ¬ 500 ≤ status := by omega
    exact ⟨by simp [handleResponse, hng, h4], rfl⟩
  · intro hlt hp
    have h1 : ¬ 500 ≤ status := by omega
    have h2 : ¬ 400 ≤ status := by omega
    simp [handleResponse, h1, h2, hp]

/-- Witness for C5 at statuses 503, 404 and 200. -/
theorem addNote_status_classification_witness :
    handleResponse 503 none = Except.error (AddNoteTransportError.serverError 503) ∧
    handleResponse 404 none = Except.error (AddNoteTransportError.badRequest 404) ∧
    handleResponse 200 (some { result := 5, error := "" }) =
      Except.ok { result := 5, error := "" } :=
  ⟨((addNote_status_classification 503 none { result := 0, error := "" }).1
      (by decide)).2.1,
   ((addNote_status_classification 404 none { result := 0, error := "" }).2.1
      (by decide) (by decide)).1,
   (addNote_status_classification 200 (some { result := 5, error := "" })
      { result := 5, error := "" }).2.2 (by decide) rfl⟩

/-- C6: bookmark-count extraction is total; every absent or malformed
shape of the nested extension structure yields the empty string, and a
present first bookmarkcount entry yields its value. -/
theorem safeGetBookmarkCount_total (extensions : Extensions) :
    (extensions.lookup "hatena" = none → safeGetBookmarkCount extensions = "") ∧
    (∀ hatena, extensions.lookup "hatena" = some hatena →
      (hatena.lookup "bookmarkcount" = none → safeGetBookmarkCount extensions = "") ∧
      (hatena.lookup "bookmarkcount" = some [] → safeGetBookmarkCount extensions = "") ∧
      (∀ e rest, hatena.lookup "bookmarkcount" = some (e :: rest) →
        safeGetBookmarkCount extensions = e.value)) := by
  refine ⟨fun h => by simp [safeGetBookmarkCount, h],
    fun hatena hh => ⟨fun h => ?_, fun h => ?_, fun e rest h => ?_⟩⟩
  all_goals simp [safeGetBookmarkCount, hh, h]

/-- Witness for C6 at the four shapes of the extension structure. -/
theorem safeGetBookmarkCount_total_witness :
    safeGetBookmarkCount [] = "" ∧
    safeGetBookmarkCount [("hatena", [])] = "" ∧
    safeGetBookmarkCount [("hatena", [("bookmarkcount", [])])] = "" ∧
    safeGetBookmarkCount [("hatena", [("bookmarkcount", [{ value := "12" }])])] = "12" :=
  ⟨(safeGetBookmarkCount_total []).1 rfl,
   ((safeGetBookmarkCount_total [("hatena", [])]).2 [] rfl).1 rfl,
   ((safeGetBookmarkCount_total [("hatena", [("bookmarkcount", [])])]).2 _ rfl).2.1 rfl,
   ((safeGetBookmarkCount_total
      [("hatena", [("bookmarkcount", [{ value := "12" }])])]).2 _ rfl).2.2 _ [] rfl⟩

/-- C9: parseArgs returns an error exactly when the url flag was not
provided on the command line, and an omitted deck flag defaults the
deck name to Hatena. -/
theorem parseArgs_contract (c : CmdLine) :
    ((∃ e, parseArgs c = Except.error e) ↔ c.url = none) ∧
    (∀ a, parseArgs c = Except.ok a →
      a.URL = c.url.getD "" ∧ a.Deck = c.deck.getD "Hatena") ∧
    (c.deck = none → ∀ a, parseArgs c = Except.ok a → a.Deck = "Hatena") := by
  obtain ⟨curl, cdeck⟩ := c
  cases curl with
  | none =>
    refine ⟨⟨fun _ => rfl, fun _ => ⟨_, rfl⟩⟩, ?_, ?_⟩
    · intro a ha
      simp [parseArgs] at ha
    · intro _ a ha
      simp [parseArgs] at ha
  | some u =>
    refine ⟨⟨?_, fun h => by simp at h⟩, ?_, ?_⟩
    · rintro ⟨e, he⟩
      simp [parseArgs] at he
    · intro a ha
      simp only [parseArgs, Except.ok.injEq] at ha
      subst ha
      exact ⟨rfl, rfl⟩
    · intro hd a ha
      have hd2 : cdeck = none := hd
      subst hd2
      simp only [parseArgs, Except.ok.injEq] at ha
      subst ha
      rfl

/-- Witness for C9: omitted url errors, provided url with omitted deck
defaults to Hatena. -/
theorem parseArgs_contract_witness :
    (∃ e, parseArgs { url := none, deck := none } = Except.error e) ∧
    Args.Deck { URL := "https://feed", Deck := "Hatena" } = "Hatena" :=
  ⟨(parseArgs_contract { url := none, deck := none }).1.mpr rfl,
   (parseArgs_contract { url := some "https://feed", deck := none }).2.2 rfl
     { URL := "https://feed", Deck := "Hatena" } rfl⟩

/-- C10: the addNote request body has action addNote, version 6, the
given deck, the fixed Basic model, exactly the given front and back
fields, allowDuplicate false with duplicateScope deck scoped to the
same deck, the given tags, and an empty picture list; and it is POSTed
to the fixed local address. -/
theorem addNote_request_shape (front back deck : String) (tags : List String) :
    (buildAddNoteData front back deck tags).action = "addNote" ∧
    (buildAddNoteData front back deck tags).version = 6 ∧
    (buildAddNoteData front back deck tags).params.note.deckName = deck ∧
    (buildAddNoteData front back deck tags).params.note.modelName = "Basic" ∧
    (buildAddNoteData front back deck tags).params.note.fields =
      { Front := front, Back := back } ∧
    (buildAddNoteData front back deck tags).params.note.options.allowDuplicate = false ∧
    (buildAddNoteData front back deck tags).params.note.options.duplicateScope = "deck" ∧
    (buildAddNoteData front back deck
      tags).params.note.options.duplicateScopeOptions.deckName = deck ∧
    (buildAddNoteData front back deck tags).params.note.tags = tags ∧
    (buildAddNoteData front back deck tags).params.note.picture = [] ∧
    ankiHost = "http://127.0.0.1:8765" :=
  ⟨rfl, rfl, rfl, rfl, rfl, rfl, rfl, rfl, rfl, rfl, rfl⟩

/-- Formatting dereferences the image, parsed publish date and author
without a nil check, so a missing one aborts the iteration. -/
theorem formatFront_eq_none_of_missing (item : FeedItem)
    (h : item.image = none ∨ item.publishedParsed = none ∨ item.author = none) :
    formatFront item = none := by
  cases hi : item.image <;> cases hp : item.publishedParsed <;>
    cases ha : item.author <;> simp_all [formatFront]

/-- C1: if a first run over a feed item set submits and records every
item, it made exactly one (successful) note-creation call per item, and
a second run over the identical item set with the same feed URL and
deck name finds a non-empty dedup record for every item, classifies
every item as Skipped, and makes zero note-creation calls. -/
theorem dedup_controller_idempotent (hash : String → String) (url deck : String)
    (api1 api2 : FeedItem → ApiResult) (store0 store1 : Store)
    (items : List FeedItem) (os1 : List ItemOutcome) (n1 : Nat)
    (hrun1 : runItems hash url deck api1 store0 items = (os1, store1, n1))
    (hall : ∀ o ∈ os1, o = ItemOutcome.submitted) :
    n1 = items.length ∧
    (∀ item ∈ items, lookupVal store1 (itemKey hash url deck item) ≠ "") ∧
    runItems hash url deck api2 store1 items =
      (List.replicate items.length ItemOutcome.skipped, store1, 0) := by
  have hall2 : ∀ o ∈ (runItems hash url deck api1 store0 items).1,
      o = ItemOutcome.submitted := by
    rw [hrun1]
    exact hall
  obtain ⟨hcount, hrec⟩ := runItems_all_submitted hash url deck api1 items store0 hall2
  rw [hrun1] at hcount hrec
  exact ⟨hcount, hrec, runItems_all_recorded hash url deck api2 items store1 hrec⟩

/-- Witness for C1: first run with a healthy API submits the example
item; the second run, even against a dead API, skips it with zero
calls. -/
theorem dedup_controller_idempotent_witness :
    (1 : Nat) = [itemEx].length ∧
    (∀ item ∈ [itemEx],
      lookupVal [(itemKey id "https://feed" "Hatena" itemEx, fmtSprint 5)]
        (itemKey id "https://feed" "Hatena" item) ≠ "") ∧
    runItems id "https://feed" "Hatena" apiDown
        [(itemKey id "https://feed" "Hatena" itemEx, fmtSprint 5)] [itemEx] =
      (List.replicate 1 ItemOutcome.skipped,
       [(itemKey id "https://feed" "Hatena" itemEx, fmtSprint 5)], 0) :=
  dedup_controller_idempotent id "https://feed" "Hatena" apiOK apiDown []
    [(itemKey id "https://feed" "Hatena" itemEx, fmtSprint 5)] [itemEx]
    [ItemOutcome.submitted] 1 rfl (by decide)

/-- C2: when the note-creation call fails at the transport level or the
response carries a non-empty error field, the iteration writes nothing,
the store is unchanged, exactly one call was made, and the loop
continues with the next item. -/
theorem addNote_failure_not_persisted (hash : String → String) (url deck : String)
    (api : FeedItem → ApiResult) (store : Store) (item : FeedItem) (f : String)
    (hnew : lookupVal store (itemKey hash url deck item) = "")
    (hfmt : formatFront item = some f)
    (hfail : api item = ApiResult.transportErr ∨
      ∃ r, api item = ApiResult.result r ∧ r.error ≠ "") :
    ∃ o, runStep hash url deck api store item = (o, store, 1) ∧
      (o = ItemOutcome.transportFailed ∨ o = ItemOutcome.apiFailed) ∧
      ∀ rest, runItems hash url deck api store (item :: rest) =
        (o :: (runItems hash url deck api store rest).1,
         (runItems hash url deck api store rest).2.1,
         1 + (runItems hash url deck api store rest).2.2) := by
  rcases hfail with htr | ⟨r, happ, herr⟩
  · have hstep := runStep_of_transportErr hash url deck api store item f hnew hfmt htr
    refine ⟨ItemOutcome.transportFailed, hstep, Or.inl rfl, fun rest => ?_⟩
    rw [runItems_cons, hstep]
    simp
  · have hstep := runStep_of_apiErr hash url deck api store item f r hnew hfmt happ herr
    refine ⟨ItemOutcome.apiFailed, hstep, Or.inr rfl, fun rest => ?_⟩
    rw [runItems_cons, hstep]
    simp

/-- Witness for C2: a transport failure on the example item leaves the
empty store empty and the loop moves on. -/
theorem addNote_failure_not_persisted_witness :
    ∃ o, runStep id "https://feed" "Hatena" apiDown [] itemEx = (o, [], 1) ∧
      (o = ItemOutcome.transportFailed ∨ o = ItemOutcome.apiFailed) ∧
      ∀ rest, runItems id "https://feed" "Hatena" apiDown [] (itemEx :: rest) =
        (o :: (runItems id "https://feed" "Hatena" apiDown [] rest).1,
         (runItems id "https://feed" "Hatena" apiDown [] rest).2.1,
         1 + (runItems id "https://feed" "Hatena" apiDown [] rest).2.2) :=
  addNote_failure_not_persisted id "https://feed" "Hatena" apiDown [] itemEx _
    rfl rfl (Or.inl rfl)

/-- C7: the note-formatting step is not total: an unrecorded item with
a nil image, nil parsed publish date or nil author makes the iteration
abort by a nil-pointer dereference, so the run returns only the abort
outcome and no later item is processed. -/
theorem formatter_nil_deref_aborts (hash : String → String) (url deck : String)
    (api : FeedItem → ApiResult) (store : Store) (item : FeedItem)
    (rest : List FeedItem)
    (hmiss : item.image = none ∨ item.publishedParsed = none ∨ item.author = none)
    (hnew : lookupVal store (itemKey hash url deck item) = "") :
    runStep hash url deck api store item = (ItemOutcome.panicked, store, 0) ∧
    runItems hash url deck api store (item :: rest) =
      ([ItemOutcome.panicked], store, 0) := by
  have hstep := runStep_of_panic hash url deck api store item hnew
    (formatFront_eq_none_of_missing item hmiss)
  refine ⟨hstep, ?_⟩
  rw [runItems_cons, hstep]
  simp

/-- Witness for C7: the author-less example item aborts the run and the
following item is never processed. -/
theorem formatter_nil_deref_aborts_witness :
    runStep id "https://feed" "Hatena" apiOK [] itemNoAuthor =
      (ItemOutcome.panicked, [], 0) ∧
    runItems id "https://feed" "Hatena" apiOK [] [itemNoAuthor, itemEx] =
      ([ItemOutcome.panicked], [], 0) :=
  formatter_nil_deref_aborts id "https://feed" "Hatena" apiOK [] itemNoAuthor
    [itemEx] (Or.inr (Or.inr rfl)) rfl

/-- C8: a successful submission records the decimal rendering of the
int64 result, a non-empty string, so every record this program writes
makes the item skip on a later run; and a key whose stored value is
empty is treated like absence, so the item is submitted again (the
hypothesis on the lookup holds both for an absent key and for a present
key with empty value, as the witness shows). -/
theorem dedup_record_value_nonempty (hash : String → String) (url deck : String)
    (api : FeedItem → ApiResult) (store : Store) (item : FeedItem) (f : String)
    (r : addNoteResult)
    (hnew : lookupVal store (itemKey hash url deck item) = "")
    (hfmt : formatFront item = some f)
    (happ : api item = ApiResult.result r) (herr : r.error = "") :
    runStep hash url deck api store item =
      (ItemOutcome.submitted,
       (itemKey hash url deck item, fmtSprint r.result) :: store, 1) ∧
    fmtSprint r.result ≠ "" ∧
    runStep hash url deck api
        ((itemKey hash url deck item, fmtSprint r.result) :: store) item =
      (ItemOutcome.skipped,
       (itemKey hash url deck item, fmtSprint r.result) :: store, 0) := by
  have hstep := runStep_of_success hash url deck api store item f r hnew hfmt happ herr
  refine ⟨hstep, fmtSprint_ne_empty r.result, ?_⟩
  apply runStep_of_dup
  rw [lookupVal_cons, if_pos rfl]
  exact fmtSprint_ne_empty r.result

/-- Witness for C8: the store already holds the key of the example item
with an empty value; the item is submitted anyway, the new record is
non-empty, and with it in place the item is skipped. -/
theorem dedup_record_value_nonempty_witness :
    runStep id "https://feed" "Hatena" apiOK
        [(itemKey id "https://feed" "Hatena" itemEx, "")] itemEx =
      (ItemOutcome.submitted,
       (itemKey id "https://feed" "Hatena" itemEx, fmtSprint 5) ::
         [(itemKey id "https://feed" "Hatena" itemEx, "")], 1) ∧
    fmtSprint (5 : Int) ≠ "" ∧
    runStep id "https://feed" "Hatena" apiOK
        ((itemKey id "https://feed" "Hatena" itemEx, fmtSprint 5) ::
          [(itemKey id "https://feed" "Hatena" itemEx, "")]) itemEx =
      (ItemOutcome.skipped,
       (itemKey id "https://feed" "Hatena" itemEx, fmtSprint 5) ::
         [(itemKey id "https://feed" "Hatena" itemEx, "")], 0) :=
  dedup_record_value_nonempty id "https://feed" "Hatena" apiOK
    [(itemKey id "https://feed" "Hatena" itemEx, "")] itemEx _
    { result := 5, error := "" } rfl rfl rfl rfl

end AnkiHatena
